import Mathlib

/-!
Verification of the continuous tmux monitoring engine of `tmux-ai-party`
(`tmux_monitor_v2.py`, with the pattern-learning heuristic from
`tmux_monitor.py`) against its natural-language specification.

The Python code is shallowly embedded: dataclasses become structures,
`datetime` values become `Nat` tick counts, float thresholds become `Rat`,
the `deque(maxlen=...)` becomes a list with explicit oldest-eviction, the
async methods become pure state-transformers, and the two external AI
collaborators (`summarize_activity` / `generate_next_step` bodies) become
`String → Except String String` parameters, since an exception raised by
the provider client propagates out of the method in the source.
-/

namespace Tmux

/-- `LineEntry` dataclass: a single captured line with metadata
(`tmux_monitor_v2.py`, class `LineEntry`). -/
structure LineEntry where
  content : String
  timestamp : Nat
  line_number : Nat
deriving DecidableEq

/-- `Summary` dataclass (`tmux_monitor_v2.py`, class `Summary`). -/
structure Summary where
  content : String
  start_line : Nat
  end_line : Nat
  timestamp : Nat
  line_count : Nat
deriving DecidableEq

/-- `InteractivePrompt` dataclass (`tmux_monitor_v2.py`). -/
structure InteractivePrompt where
  pattern : String
  prompt_type : String
  detected_at : Nat
  full_line : String
deriving DecidableEq

/-- `ProcessingReason` enum (`tmux_monitor_v2.py`). -/
inductive ProcessingReason where
  | pause_detected
  | context_limit
  | prompt_detected
  | timeout
  | question_detected
deriving DecidableEq

/-- The `self.stats` counter dictionary of `ContinuousTmuxMonitor.__init__`. -/
structure Stats where
  lines_processed : Nat
  summaries_created : Nat
  prompts_detected : Nat
  questions_answered : Nat
  auto_responses : Nat
deriving DecidableEq

/-- The mutable monitor state touched by queue processing:
`self.line_queue`, `self.summaries`, `self.stats`. -/
structure MonitorState where
  line_queue : List LineEntry
  summaries : List Summary
  stats : Stats
deriving DecidableEq

/-- Constructor configuration of `ContinuousTmuxMonitor`
(`max_context_lines`, `pause_threshold`, `dead_threshold`). Thresholds
are Python floats compared against elapsed seconds; embedded as `Rat`. -/
structure MonitorConfig where
  max_context_lines : Nat
  pause_threshold : Rat
  dead_threshold : Rat
deriving DecidableEq

/-- `self.line_queue: Deque[LineEntry] = deque(maxlen=10000)` — the
queue's capacity. -/
def line_queue_maxlen : Nat := 10000

/-- The whitespace characters Python's `str.strip()` removes. -/
def pyIsSpace (c : Char) : Bool :=
  c = ' ' || c = '\t' || c = '\n' || c = '\r' || c = '\x0b' || c = '\x0c'

/-- Truthiness of `line.strip()`: false iff every character is
whitespace (in particular for the empty string). -/
def isBlank (s : String) : Bool :=
  s.data.all pyIsSpace

/-- Python `str.strip()`: drop leading and trailing whitespace. -/
def pyStrip (s : String) : String :=
  ⟨((s.data.dropWhile pyIsSpace).reverse.dropWhile pyIsSpace).reverse⟩

/-- ASCII lower-casing of one character (`str.lower()` restricted to the
ASCII range, which covers every pattern in the source). -/
def pyToLowerChar (c : Char) : Char :=
  if 'A' ≤ c ∧ c ≤ 'Z' then Char.ofNat (c.toNat + 32) else c

/-- Python `str.lower()`. -/
def pyLower (s : String) : String :=
  ⟨s.data.map pyToLowerChar⟩

/-- One `deque.append` on a `deque(maxlen=capacity)`: the new element is
added on the right and, if the deque would exceed its capacity, the
oldest (leftmost) element is evicted. -/
def dequeAppend (capacity : Nat) (q : List α) (x : α) : List α :=
  let q' := q ++ [x]
  if capacity < q'.length then q'.drop (q'.length - capacity) else q'

/-- Folding a whole sequence of `deque.append` calls. -/
def dequeAppendAll (capacity : Nat) (q : List α) (xs : List α) : List α :=
  xs.foldl (dequeAppend capacity) q

theorem dequeAppend_eq_drop (capacity : Nat) (q : List α) (x : α) :
    dequeAppend capacity q x = (q ++ [x]).drop ((q ++ [x]).length - capacity) := by
  simp only [dequeAppend]
  by_cases h : capacity < (q ++ [x]).length
  · rw [if_pos h]
  · rw [if_neg h]
    have h0 : (q ++ [x]).length - capacity = 0 := by
      simp only [List.length_append, List.length_singleton] at h ⊢
      omega
    rw [h0, List.drop_zero]

theorem dequeAppend_length_le (capacity : Nat) (q : List α) (x : α) :
    (dequeAppend capacity q x).length ≤ capacity := by
  rw [dequeAppend_eq_drop]
  simp
  omega

theorem dequeAppendAll_eq_drop (capacity : Nat) (q : List α) (xs : List α)
    (h : q.length ≤ capacity) :
    dequeAppendAll capacity q xs = (q ++ xs).drop ((q ++ xs).length - capacity) := by
  induction xs generalizing q with
  | nil =>
    have h0 : q.length - capacity = 0 := by omega
    simp [dequeAppendAll, h0]
  | cons x xs ih =>
    have hstep : dequeAppendAll capacity q (x :: xs)
        = dequeAppendAll capacity (dequeAppend capacity q x) xs := rfl
    rw [hstep, ih _ (dequeAppend_length_le capacity q x), dequeAppend_eq_drop]
    have hd : (q ++ [x]).length - capacity ≤ (q ++ [x]).length := by omega
    rw [← List.drop_append_of_le_length hd]
    rw [List.drop_drop]
    have harr : (q ++ [x]) ++ xs = q ++ (x :: xs) := by simp
    rw [harr]
    congr 1
    simp
    omega

/-! ## Capture loop (`capture_lines_continuously`)

Each poll compares the freshly captured pane content with the previous
snapshot `last_content`. If the new content is longer, the suffix is the
set of new lines; each is appended with
`line_number = len(last_content) + i`. Otherwise nothing is appended.
In every case `last_content` becomes the current content. The queue can
also be cleared between polls by `process_queue` (`self.line_queue.clear()`).
-/

/-- The batch of `LineEntry` values built in the `for i, line in
enumerate(new_lines)` loop, with `line_number = len(last_content) + i`. -/
def newEntries (lastLen : Nat) (new_lines : List String) (now : Nat) : List LineEntry :=
  new_lines.enum.map (fun p => ⟨p.2, now, lastLen + p.1⟩)

/-- The capture-relevant state: the previous snapshot and the queue. -/
structure CapState where
  last_content : List String
  queue : List LineEntry
deriving DecidableEq

/-- One iteration of the capture loop observing pane content `content`;
returns the new state and the entries appended this iteration. -/
def capture_step (st : CapState) (content : List String) (now : Nat) :
    CapState × List LineEntry :=
  if st.last_content.length < content.length then
    let new_lines := content.drop st.last_content.length
    let entries := newEntries st.last_content.length new_lines now
    (⟨content, dequeAppendAll line_queue_maxlen st.queue entries⟩, entries)
  else
    (⟨content, st.queue⟩, [])

/-- Events interleaving pane captures with queue clears
(the clear coming from `process_queue`). -/
inductive CapEvent where
  | capture (content : List String) (now : Nat)
  | clear
deriving DecidableEq

/-- Run a sequence of capture/clear events, logging the `line_number` of
every entry appended over the whole run (in order of appending). -/
def runCapture : CapState → List CapEvent → CapState × List Nat
  | st, [] => (st, [])
  | st, CapEvent.capture c now :: rest =>
    let step := capture_step st c now
    let tail := runCapture step.1 rest
    (tail.1, step.2.map LineEntry.line_number ++ tail.2)
  | st, CapEvent.clear :: rest => runCapture ⟨st.last_content, []⟩ rest

/-- The lengths of the captured pane snapshots, in order of occurrence. -/
def captureLens : List CapEvent → List Nat
  | [] => []
  | CapEvent.capture c _ :: rest => c.length :: captureLens rest
  | CapEvent.clear :: rest => captureLens rest

theorem newEntries_numbers (lastLen : Nat) (new_lines : List String) (now : Nat) :
    (newEntries lastLen new_lines now).map LineEntry.line_number
      = List.range' lastLen new_lines.length := by
  simp only [newEntries, List.map_map]
  have : (LineEntry.line_number ∘ fun p : Nat × String => (⟨p.2, now, lastLen + p.1⟩ : LineEntry))
      = (fun p : Nat × String => lastLen + p.1) := rfl
  rw [this]
  have h2 : (fun p : Nat × String => lastLen + p.1)
      = (fun n => lastLen + n) ∘ Prod.fst := rfl
  rw [h2, ← List.map_map, List.enum_map_fst, List.range'_eq_map_range]

/-! ## Idle monitor (`monitor_activity`) and prompt detection -/

/-- The inner loop of `is_at_prompt`: walk the lines most-recent-first;
at the first line whose `strip()` is non-empty, report whether any
prompt pattern matches it; if all lines are blank, report `false`.
A compiled prompt pattern is embedded as its match predicate
`String → Bool` (an invalid regex, skipped by the `except re.error`
branch, behaves like a never-matching predicate). -/
def is_at_prompt_scan (patterns : List (String → Bool)) : List String → Bool
  | [] => false
  | l :: rest =>
    if isBlank l then is_at_prompt_scan patterns rest
    else patterns.any (fun p => p l)

/-- `is_at_prompt` (`tmux_monitor_v2.py`): iterates `reversed(lines)`. -/
def is_at_prompt (patterns : List (String → Bool)) (lines : List String) : Bool :=
  is_at_prompt_scan patterns lines.reverse

/-- The most recent line whose `strip()` is non-empty — the line that
`is_at_prompt` actually tests (phrasing used by the specification). -/
def lastNonBlank (lines : List String) : Option String :=
  lines.reverse.find? (fun l => !isBlank l)

theorem is_at_prompt_scan_eq_find (patterns : List (String → Bool)) (ls : List String) :
    is_at_prompt_scan patterns ls
      = match ls.find? (fun l => !isBlank l) with
        | some l => patterns.any (fun p => p l)
        | none => false := by
  induction ls with
  | nil => rfl
  | cons l rest ih =>
    by_cases hb : isBlank l
    · simp [is_at_prompt_scan, hb, List.find?, ih]
    · simp [is_at_prompt_scan, hb, List.find?]

theorem is_at_prompt_eq_lastNonBlank (patterns : List (String → Bool)) (lines : List String) :
    is_at_prompt patterns lines
      = match lastNonBlank lines with
        | some l => patterns.any (fun p => p l)
        | none => false :=
  is_at_prompt_scan_eq_find patterns lines.reverse

/-- One decision of the `monitor_activity` loop: given the queue and the
elapsed idle seconds, which `ProcessingReason` (if any) is used to flush.
This mirrors the `if/elif` chain of the source in order. -/
def monitorDecision (cfg : MonitorConfig) (patterns : List (String → Bool))
    (queue : List LineEntry) (idle : Rat) : Option ProcessingReason :=
  if cfg.max_context_lines ≤ queue.length then
    some ProcessingReason.context_limit
  else if cfg.pause_threshold ≤ idle ∧ queue ≠ [] then
    if queue ≠ [] ∧ is_at_prompt patterns (queue.map LineEntry.content) then
      some ProcessingReason.prompt_detected
    else
      some ProcessingReason.pause_detected
  else if cfg.dead_threshold ≤ idle ∧ queue ≠ [] then
    some ProcessingReason.timeout
  else
    none

/-! ## Queue processor (`process_queue`, `_build_rolling_context`) -/

/-- Python's tail slice `l[-n:]`. For `n = 0` the slice `l[-0:]` is the
whole list; otherwise it is the last `n` elements (all of them when the
list is shorter than `n`). -/
def pyTailSlice (n : Nat) (l : List α) : List α :=
  if n = 0 then l else l.drop (l.length - n)

/-- `_build_rolling_context`: previous summary (when at least two exist),
last summary (when at least one exists), then the most recent
`max_context_lines` lines, joined with blank lines. -/
def build_rolling_context (max_context_lines : Nat) (summaries : List Summary)
    (recent_lines : List LineEntry) : String :=
  let parts1 : List String :=
    if 2 ≤ summaries.length then
      ["[Previous Summary]: " ++ ((summaries[summaries.length - 2]?).map Summary.content).getD ""]
    else []
  let parts2 : List String :=
    if summaries ≠ [] then
      parts1 ++ ["[Last Summary]: " ++ ((summaries[summaries.length - 1]?).map Summary.content).getD ""]
    else parts1
  let recent_text :=
    String.intercalate "\n" ((pyTailSlice max_context_lines recent_lines).map LineEntry.content)
  String.intercalate "\n\n" (parts2 ++ ["[Recent Activity]:\n" ++ recent_text])

/-- The context-construction branch of `process_queue`: rolling context
when the reason is `CONTEXT_LIMIT` and `self.summaries` is non-empty,
otherwise the raw text of all queued lines. -/
def buildContext (max_context_lines : Nat) (reason : ProcessingReason)
    (summaries : List Summary) (lines_to_process : List LineEntry) : String :=
  if reason = ProcessingReason.context_limit ∧ summaries ≠ [] then
    build_rolling_context max_context_lines summaries lines_to_process
  else
    String.intercalate "\n" (lines_to_process.map LineEntry.content)

/-- Which external collaborators a `process_queue` run actually invoked,
and what it logged via `log_interaction`. -/
structure FlushInfo where
  summarizerCalled : Bool
  nextStepCalled : Bool
  logged : Option (String × String × String)
deriving DecidableEq

/-- Outcome of `process_queue`: normal return, or an exception escaping
the method. Python mutates `self` in place, so an escaping exception
still leaves behind whatever state mutations already happened — the
`err` constructor therefore carries the state at the raise point. -/
inductive PQOutcome where
  | ok (st : MonitorState) (info : FlushInfo)
  | err (st : MonitorState) (info : FlushInfo) (msg : String)
deriving DecidableEq

/-- The state carried by a `PQOutcome` (what `self` holds afterwards). -/
def pqState : PQOutcome → MonitorState
  | PQOutcome.ok st _ => st
  | PQOutcome.err st _ _ => st

/-- `process_queue`: early return on an empty queue; otherwise build the
context, call the Summarizer, record the Summary, bump the counter,
clear the queue, and for `PROMPT_DETECTED`/`TIMEOUT` also call the
NextStepGenerator and log the interaction. The two collaborator calls
are `Except`-valued: `Except.error` models a raised exception, which the
method does not catch. -/
def process_queue (cfg : MonitorConfig) (st : MonitorState) (reason : ProcessingReason)
    (summarize nextStep : String → Except String String) (now : Nat) : PQOutcome :=
  if st.line_queue = [] then
    PQOutcome.ok st ⟨false, false, none⟩
  else
    let lines_to_process := st.line_queue
    let context := buildContext cfg.max_context_lines reason st.summaries lines_to_process
    match summarize context with
    | Except.error e => PQOutcome.err st ⟨true, false, none⟩ e
    | Except.ok summary_text =>
      match lines_to_process with
      | [] => PQOutcome.ok st ⟨true, false, none⟩
      | first :: rest =>
        let lastE := (first :: rest).getLast (List.cons_ne_nil first rest)
        let summary : Summary :=
          ⟨summary_text, first.line_number, lastE.line_number, now, (first :: rest).length⟩
        let st1 : MonitorState :=
          { line_queue := []
            summaries := st.summaries ++ [summary]
            stats := { st.stats with summaries_created := st.stats.summaries_created + 1 } }
        if reason = ProcessingReason.prompt_detected ∨ reason = ProcessingReason.timeout then
          match nextStep summary_text with
          | Except.error e => PQOutcome.err st1 ⟨true, true, none⟩ e
          | Except.ok next_steps =>
            PQOutcome.ok st1 ⟨true, true, some (context, summary_text, next_steps)⟩
        else
          PQOutcome.ok st1 ⟨true, false, none⟩

/-- One tick of the `monitor_activity` loop body: pick a reason (if any)
and run `process_queue`; the surrounding `try/except` catches an escaping
exception and the loop moves on with whatever state `self` holds. -/
def monitor_tick (cfg : MonitorConfig) (patterns : List (String → Bool)) (st : MonitorState)
    (idle : Rat) (summarize nextStep : String → Except String String) (now : Nat) : MonitorState :=
  match monitorDecision cfg patterns st.line_queue idle with
  | none => st
  | some r => pqState (process_queue cfg st r summarize nextStep now)

/-! ## SecureVault and interactive prompt handling -/

/-- The vault's two lookup tables (`passwords`, `auto_responses`), as
association lists keyed by strings (a YAML dict in the source). -/
structure VaultData where
  passwords : List (String × String)
  auto_responses : List (String × String)
deriving DecidableEq

/-- `SecureVault.get_password`: the lookup key is the first 16 hex
characters of the SHA-256 digest of the context. The digest function
itself is an external library call (`hashlib`), embedded as a parameter
`sha256hex` producing the 64-character hex digest. -/
def get_password (sha256hex : String → String) (vault : VaultData) (context : String) :
    Option String :=
  vault.passwords.lookup ⟨(sha256hex context).data.take 16⟩

/-- `SecureVault.get_auto_response`: the lookup key is the pattern
string itself (`self.vault_data.get("auto_responses", {}).get(pattern)`). -/
def get_auto_response (vault : VaultData) (pattern : String) : Option String :=
  vault.auto_responses.lookup pattern

/-- If `needle` occurs as a contiguous sublist of `hay`, return the
suffix of `hay` after the first occurrence; otherwise `none`. -/
def dropAfterFirst (needle : List Char) : List Char → Option (List Char)
  | [] => if needle = [] then some [] else none
  | c :: rest =>
    if needle.isPrefixOf (c :: rest) then some ((c :: rest).drop needle.length)
    else dropAfterFirst needle rest

/-- Substring containment test (Python's `in` on strings). -/
def strContainsSub (hay needle : String) : Bool :=
  (dropAfterFirst needle.data hay.data).isSome

/-- Match a sequence of literal segments separated by `.*` against a
string, anywhere in it — the semantics of `re.search` for the regexes
appearing in `question_patterns`, which are all of the shape
`lit₁ .* lit₂ .* …` once escapes are resolved. A match exists iff the
segments occur in order, without overlap. -/
def searchSegs : List (List Char) → List Char → Bool
  | [], _ => true
  | seg :: rest, s =>
    match dropAfterFirst seg s with
    | some rem => searchSegs rest rem
    | none => false

/-- `re.search(pattern, line, re.IGNORECASE)` for a
literal-segments pattern: lower-case both sides, then search. -/
def regexLiteSearchCI (segs : List String) (line : String) : Bool :=
  searchSegs (segs.map (fun s => (pyLower s).data)) (pyLower line).data

/-- `self.question_patterns` from `ContinuousTmuxMonitor.__init__`: each
entry pairs the source regex text (kept as the `pattern` field of a
detected prompt and as the vault key) with its literal segments, the
pieces between `.*` after resolving `\?`, `\(`, `\)`, `\[`, `\]`. -/
def question_patterns : List (String × List String) :=
  [ ("Are you sure.*\\?", ["Are you sure", "?"]),
    ("Do you want to.*\\?", ["Do you want to", "?"]),
    ("Continue\\?.*\\(y/n\\)", ["Continue?", "(y/n)"]),
    ("Overwrite.*\\?", ["Overwrite", "?"]),
    ("Delete.*\\?", ["Delete", "?"]),
    ("Save changes.*\\?", ["Save changes", "?"]),
    ("Password:", ["Password:"]),
    ("Enter passphrase", ["Enter passphrase"]),
    ("Username:", ["Username:"]),
    ("\\[sudo\\] password for", ["[sudo] password for"]) ]

/-- `classify_prompt`: keyword checks on the lower-cased pattern text. -/
def classify_prompt (pattern : String) : String :=
  let pl := pyLower pattern
  if strContainsSub pl "password" || strContainsSub pl "passphrase" then "password"
  else if strContainsSub pl "y/n" || strContainsSub pl "yes/no" then "confirmation"
  else if strContainsSub pl "username" then "username"
  else "general"

/-- `detect_interactive_prompt`: first question pattern matching the
line (case-insensitively) wins; `None` if none match. -/
def detect_interactive_prompt (now : Nat) (line : String) : Option InteractivePrompt :=
  (question_patterns.find? (fun pp => regexLiteSearchCI pp.2 line)).map
    (fun pp => ⟨pp.1, classify_prompt pp.1, now, line⟩)

/-- Result of `handle_interactive_prompt`: the state afterwards, the
keys sent to the pane (if any), the reason `process_queue` was invoked
with (if it was), and that invocation's outcome. -/
structure HandleOutcome where
  state : MonitorState
  sent : Option String
  invoked : Option ProcessingReason
  flush : Option PQOutcome
deriving DecidableEq

/-- Python truthiness of the vault lookup result, as tested by
`if response:` in `handle_interactive_prompt`: false for `None` and
also for a registered empty string. -/
def truthyResponse : Option String → Bool
  | some r => decide (r ≠ "")
  | none => false

/-- `handle_interactive_prompt`: re-detect the prompt; bump
`prompts_detected`; with automation enabled, look up the vault's
auto-response and test its truthiness (`if response:`): a truthy (non-
`None`, non-empty) response is sent and `auto_responses` bumped,
otherwise fall through to `process_queue(QUESTION_DETECTED)`; with
automation disabled, only notify. -/
def handle_interactive_prompt (cfg : MonitorConfig) (automation_enabled : Bool)
    (vault : VaultData) (st : MonitorState) (line : String)
    (summarize nextStep : String → Except String String) (now : Nat) : HandleOutcome :=
  match detect_interactive_prompt now line with
  | none => ⟨st, none, none, none⟩
  | some prompt =>
    let st1 : MonitorState :=
      { st with stats := { st.stats with prompts_detected := st.stats.prompts_detected + 1 } }
    if automation_enabled then
      let response := get_auto_response vault prompt.pattern
      if truthyResponse response then
        ⟨{ st1 with stats := { st1.stats with auto_responses := st1.stats.auto_responses + 1 } },
          response, none, none⟩
      else
        let out := process_queue cfg st1 ProcessingReason.question_detected summarize nextStep now
        ⟨pqState out, none, some ProcessingReason.question_detected, some out⟩
    else
      ⟨st1, none, none, none⟩

/-! ## Pattern-learning heuristic (`tmux_monitor.py`,
`analyze_for_prompt_pattern`) -/

/-- Python's tail slice on strings, `s[-n:]` for `n ≠ 0`. -/
def strTakeRight (n : Nat) (s : String) : String :=
  ⟨s.data.drop (s.data.length - n)⟩

/-- The "prompt-like" indicator characters of the heuristic. -/
def promptLikeChars : List Char := ['$', '>', '#', ':', ']', '»', '❯', '➜']

/-- `any(char in ending for char in ['$', '>', '#', ':', ']', '»', '❯', '➜'])`. -/
def containsPromptChar (s : String) : Bool :=
  promptLikeChars.any (fun c => s.data.contains c)

/-- The characters Python 3.7+ `re.escape` prefixes with a backslash. -/
def reEscapeSpecial : List Char :=
  ['(', ')', '[', ']', '\x7b', '\x7d', '?', '*', '+', '-', '|', '^', '$',
   '\\', '.', '&', '~', '#', ' ', '\t', '\n', '\r', '\x0b', '\x0c']

/-- `re.escape(s)`. -/
def pyReEscape (s : String) : String :=
  ⟨s.data.foldr (fun c acc => if reEscapeSpecial.contains c then '\\' :: c :: acc else c :: acc) []⟩

/-- The candidate regex built from an ending:
`re.escape(ending) + r"\s*$"`. -/
def promptPatternOf (ending : String) : String :=
  pyReEscape ending ++ "\\s*$"

/-- The dictionary update `line_endings[ending] = line_endings.get(ending, 0) + 1`:
bump an existing key in place, else append the key with count 1
(Python dicts preserve insertion order). -/
def bumpCount : List (String × Nat) → String → List (String × Nat)
  | [], e => [(e, 1)]
  | (k, c) :: rest, e =>
    if k = e then (k, c + 1) :: rest else (k, c) :: bumpCount rest e

/-- Build the `line_endings` occurrence dictionary. -/
def countEndings (es : List String) : List (String × Nat) :=
  es.foldl bumpCount []

/-- Insert into a descending-sorted list of naturals. -/
def insertDescNat (n : Nat) : List Nat → List Nat
  | [] => [n]
  | m :: rest => if m ≤ n then n :: m :: rest else m :: insertDescNat n rest

/-- Sort naturals into descending order. -/
def sortDescNat (l : List Nat) : List Nat :=
  l.foldr insertDescNat []

/-- `sorted(line_endings.items(), key=lambda x: x[1], reverse=True)`:
Python's stable descending sort by count equals grouping the items by
count value, counts taken in descending order, preserving the original
(insertion) order inside each group. -/
def sortByCountDesc (l : List (String × Nat)) : List (String × Nat) :=
  (sortDescNat (l.map Prod.snd).dedup).flatMap (fun c => l.filter (fun kc => kc.2 == c))

/-- Configuration read by the heuristic: the learning switch and the
already-known base and learned pattern lists. -/
structure LearnConfig where
  prompt_learning_enabled : Bool
  prompt_patterns : List String
  learned_prompts : List String
deriving DecidableEq

/-- The endings the heuristic keeps for counting: for each of the last
10 lines with non-empty `strip()` (most recent first), the stripped last
20 characters, retained when the length is in `1..14` and a prompt-like
character occurs. -/
def keptEndings (lines : List String) : List String :=
  (((lines.reverse.filter (fun l => !isBlank l)).take 10).map
      (fun l => pyStrip (strTakeRight 20 l))).filter
    (fun e => decide (0 < e.length) && decide (e.length < 15) && containsPromptChar e)

/-- `analyze_for_prompt_pattern`: propose the escaped end-anchored regex
of the first ending (in count-descending, then insertion order)
occurring at least 3 times whose derived pattern is not already known.
The `re.compile` validation always succeeds on an escaped literal and is
omitted. -/
def analyze_for_prompt_pattern (cfg : LearnConfig) (lines : List String) : Option String :=
  if !cfg.prompt_learning_enabled then none
  else
    ((sortByCountDesc (countEndings (keptEndings lines))).find?
        (fun ec => decide (3 ≤ ec.2)
          && !decide (promptPatternOf ec.1 ∈ cfg.prompt_patterns)
          && !decide (promptPatternOf ec.1 ∈ cfg.learned_prompts))).map
      (fun ec => promptPatternOf ec.1)

/-- The heuristic as the specification words it, for comparison with
`analyze_for_prompt_pattern`: over the last 10 non-empty lines, take
each line's trailing at most 15 characters, keep those containing a
prompt-like character, and propose the escaped end-anchored regex of a
trailing string occurring at least 3 times that is not already known. -/
def analyzeClaimHeuristic (cfg : LearnConfig) (lines : List String) : Option String :=
  if !cfg.prompt_learning_enabled then none
  else
    let recent := (lines.reverse.filter (fun l => !isBlank l)).take 10
    let kept := (recent.map (strTakeRight 15)).filter containsPromptChar
    ((countEndings kept).find?
        (fun ec => decide (3 ≤ ec.2)
          && !decide (promptPatternOf ec.1 ∈ cfg.prompt_patterns)
          && !decide (promptPatternOf ec.1 ∈ cfg.learned_prompts))).map
      (fun ec => promptPatternOf ec.1)

/-! ## Claim theorems -/

/-- Claim C4: for every sequence of appends the activity queue's length
never exceeds its capacity (default 10000), and after `capacity + 1`
appends the first appended entry has been evicted while the most recent
`capacity` entries remain in order. -/
theorem claim_C4_queue_bounded_ring_buffer (capacity : Nat) (xs : List LineEntry)
    (hlen : xs.length = capacity + 1) :
    (∀ ys : List LineEntry,
        (dequeAppendAll line_queue_maxlen [] ys).length ≤ line_queue_maxlen) ∧
    (∀ c : Nat, ∀ ys : List LineEntry, (dequeAppendAll c [] ys).length ≤ c) ∧
    dequeAppendAll capacity [] xs = xs.drop 1 ∧
    (xs.Nodup → ∀ e, xs.head? = some e → e ∉ dequeAppendAll capacity [] xs) := by
  have hbound : ∀ c : Nat, ∀ ys : List LineEntry, (dequeAppendAll c [] ys).length ≤ c := by
    intro c ys
    rw [dequeAppendAll_eq_drop c [] ys (by simp)]
    simp
    omega
  have hdrop : dequeAppendAll capacity [] xs = xs.drop 1 := by
    rw [dequeAppendAll_eq_drop capacity [] xs (by simp)]
    simp [hlen]
  refine ⟨fun ys => hbound line_queue_maxlen ys, hbound, hdrop, ?_⟩
  intro hnd e he
  rw [hdrop]
  cases xs with
  | nil => simp at he
  | cons a tl =>
    have hea : e = a := by
      simp only [List.head?_cons, Option.some.injEq] at he
      exact he.symm
    subst hea
    have h2 := (List.nodup_cons.mp hnd).1
    simpa using h2

/-- Witness for C4 at capacity 2 and three concrete appends: the first
entry is evicted and the last two remain in order. -/
theorem claim_C4_witness :
    dequeAppendAll 2 []
        [(⟨"a", 0, 0⟩ : LineEntry), ⟨"b", 1, 1⟩, ⟨"c", 2, 2⟩]
      = [⟨"b", 1, 1⟩, ⟨"c", 2, 2⟩] ∧
    (⟨"a", 0, 0⟩ : LineEntry) ∉
      dequeAppendAll 2 [] [(⟨"a", 0, 0⟩ : LineEntry), ⟨"b", 1, 1⟩, ⟨"c", 2, 2⟩] := by
  have h := claim_C4_queue_bounded_ring_buffer 2
    [(⟨"a", 0, 0⟩ : LineEntry), ⟨"b", 1, 1⟩, ⟨"c", 2, 2⟩] (by decide)
  exact ⟨h.2.2.1, h.2.2.2 (by decide) _ rfl⟩

/-- Claim C10: invoking `process_queue` with an empty queue is a no-op:
no Summarizer or NextStepGenerator call, no Summary appended, nothing
logged, and the state (queue, summaries, statistics) returned unchanged. -/
theorem claim_C10_empty_queue_noop (cfg : MonitorConfig) (st : MonitorState)
    (reason : ProcessingReason) (summarize nextStep : String → Except String String)
    (now : Nat) (h : st.line_queue = []) :
    process_queue cfg st reason summarize nextStep now
      = PQOutcome.ok st ⟨false, false, none⟩ := by
  simp [process_queue, h]

/-- Witness for C10 at a concrete empty-queue state. -/
theorem claim_C10_witness :
    process_queue ⟨500, 15, 120⟩ ⟨[], [⟨"old", 0, 3, 0, 4⟩], ⟨9, 8, 7, 6, 5⟩⟩
        ProcessingReason.timeout (fun _ => Except.error "down") (fun _ => Except.error "down") 42
      = PQOutcome.ok ⟨[], [⟨"old", 0, 3, 0, 4⟩], ⟨9, 8, 7, 6, 5⟩⟩ ⟨false, false, none⟩ :=
  claim_C10_empty_queue_noop ⟨500, 15, 120⟩ ⟨[], [⟨"old", 0, 3, 0, 4⟩], ⟨9, 8, 7, 6, 5⟩⟩
    ProcessingReason.timeout (fun _ => Except.error "down") (fun _ => Except.error "down") 42 rfl

/-- Claim C1 counterexample: with `pause_threshold = 15`,
`dead_threshold = 120` and a non-empty queue, an idle time of 125 s
selects `PAUSE_DETECTED`, not `TIMEOUT`: because the `elif` chain of
`monitor_activity` tests the pause rule before the dead rule,
`idle >= pause_threshold` already holds at 125 s and preempts the
timeout branch. -/
theorem claim_C1_counterexample :
    monitorDecision ⟨500, 15, 120⟩ [] [⟨"ls", 0, 0⟩] 125
      = some ProcessingReason.pause_detected ∧
    monitorDecision ⟨500, 15, 120⟩ [] [⟨"ls", 0, 0⟩] 125
      ≠ some ProcessingReason.timeout := by
  constructor <;> decide

/-- Claim C1 amended: whenever `dead_threshold ≥ pause_threshold` (the
configuration the spec requires), an idle time at or past the dead
threshold with a non-empty queue below the context limit flushes with
`PROMPT_DETECTED` or `PAUSE_DETECTED` — never `TIMEOUT`, which the pause
rule always preempts under this configuration. -/
theorem claim_C1_amended (cfg : MonitorConfig) (patterns : List (String → Bool))
    (queue : List LineEntry) (idle : Rat)
    (hconf : cfg.pause_threshold ≤ cfg.dead_threshold)
    (hidle : cfg.dead_threshold ≤ idle) (hne : queue ≠ [])
    (hlen : queue.length < cfg.max_context_lines) :
    monitorDecision cfg patterns queue idle
      = some (if is_at_prompt patterns (queue.map LineEntry.content)
              then ProcessingReason.prompt_detected
              else ProcessingReason.pause_detected) ∧
    monitorDecision cfg patterns queue idle ≠ some ProcessingReason.timeout := by
  have h1 : ¬ cfg.max_context_lines ≤ queue.length := by omega
  have h2 : cfg.pause_threshold ≤ idle := le_trans hconf hidle
  by_cases hp : is_at_prompt patterns (queue.map LineEntry.content)
  · simp [monitorDecision, h1, h2, hne, hp]
  · simp [monitorDecision, h1, h2, hne, hp]

/-- Witness for the amended C1 at the spec's own numbers. -/
theorem claim_C1_amended_witness :
    monitorDecision ⟨500, 15, 120⟩ [] [⟨"ls", 0, 0⟩] 125 ≠ some ProcessingReason.timeout :=
  (claim_C1_amended ⟨500, 15, 120⟩ [] [⟨"ls", 0, 0⟩] 125
    (by norm_num) (by norm_num) (by simp) (by simp)).2

/-- Claim C2: with the queue below the context limit, non-empty, and
idle at or past the pause threshold, the monitor flushes with
`PROMPT_DETECTED` when the most recent line with non-blank `strip()`
matches some prompt pattern, and with `PAUSE_DETECTED` otherwise. -/
theorem claim_C2_pause_vs_prompt (cfg : MonitorConfig) (patterns : List (String → Bool))
    (queue : List LineEntry) (idle : Rat) (l : String)
    (hlen : queue.length < cfg.max_context_lines) (hne : queue ≠ [])
    (hidle : cfg.pause_threshold ≤ idle)
    (hlast : lastNonBlank (queue.map LineEntry.content) = some l) :
    (patterns.any (fun p => p l) = true →
      monitorDecision cfg patterns queue idle = some ProcessingReason.prompt_detected) ∧
    (patterns.any (fun p => p l) = false →
      monitorDecision cfg patterns queue idle = some ProcessingReason.pause_detected) := by
  have h1 : ¬ cfg.max_context_lines ≤ queue.length := by omega
  have hprompt := is_at_prompt_eq_lastNonBlank patterns (queue.map LineEntry.content)
  rw [hlast] at hprompt
  constructor <;> intro hany <;>
    simp [monitorDecision, h1, hidle, hne, hprompt, hany]

/-- Witness for C2 at the spec's numbers (`pause=15`, `dead=120`,
one queued line, `idle=16`), in both the matching and the
non-matching case. -/
theorem claim_C2_witness :
    monitorDecision ⟨500, 15, 120⟩ [fun s => s.data.contains '$'] [⟨"user@host:~$", 0, 0⟩] 16
      = some ProcessingReason.prompt_detected ∧
    monitorDecision ⟨500, 15, 120⟩ [fun s => s.data.contains '#'] [⟨"user@host:~$", 0, 0⟩] 16
      = some ProcessingReason.pause_detected := by
  constructor
  · exact (claim_C2_pause_vs_prompt ⟨500, 15, 120⟩ [fun s => s.data.contains '$']
      [⟨"user@host:~$", 0, 0⟩] 16 "user@host:~$"
      (by norm_num) (by simp) (by norm_num) rfl).1 rfl
  · exact (claim_C2_pause_vs_prompt ⟨500, 15, 120⟩ [fun s => s.data.contains '#']
      [⟨"user@host:~$", 0, 0⟩] 16 "user@host:~$"
      (by norm_num) (by simp) (by norm_num) rfl).2 rfl

/-- Claim C3 counterexample: `line_number` is not a global monotone
counter. It is computed as `len(last_content) + i`, so when the pane
content shrinks (clear/scroll) the numbering baseline resets: capturing
`["a","b"]`, clearing the queue, then capturing `[]` followed by `["c"]`
assigns line numbers `0, 1, 0` — the entry appended last does not have a
larger `line_number` than every earlier one. -/
theorem claim_C3_counterexample :
    (runCapture ⟨[], []⟩
        [CapEvent.capture ["a", "b"] 0, CapEvent.clear,
         CapEvent.capture [] 1, CapEvent.capture ["c"] 2]).2 = [0, 1, 0] ∧
    ¬ List.Pairwise (· < ·)
        (runCapture ⟨[], []⟩
          [CapEvent.capture ["a", "b"] 0, CapEvent.clear,
           CapEvent.capture [] 1, CapEvent.capture ["c"] 2]).2 := by
  constructor <;> decide

/-- Claim C3 amended: as long as no captured pane snapshot is shorter
than its predecessor, the assigned line numbers are strictly increasing
over the whole run — clearing the queue never resets the numbering.
(When the pane shrinks, the counterexample shows the numbering can
restart.) -/
theorem claim_C3_amended (st : CapState) (events : List CapEvent)
    (h : List.Chain (· ≤ ·) st.last_content.length (captureLens events)) :
    List.Pairwise (· < ·) (runCapture st events).2 ∧
    ∀ n ∈ (runCapture st events).2, st.last_content.length ≤ n := by
  induction events generalizing st with
  | nil => simp [runCapture]
  | cons ev rest ih =>
    cases ev with
    | clear =>
      have h' : List.Chain (· ≤ ·)
          (CapState.mk st.last_content []).last_content.length (captureLens rest) := by
        simpa [captureLens] using h
      simpa [runCapture] using ih _ h'
    | capture c now =>
      have hch : List.Chain (· ≤ ·) st.last_content.length (c.length :: captureLens rest) := by
        simpa [captureLens] using h
      rw [List.chain_cons] at hch
      obtain ⟨hle, hchain⟩ := hch
      by_cases hlt : st.last_content.length < c.length
      · have hbatch : ((capture_step st c now).2.map LineEntry.line_number)
            = List.range' st.last_content.length (c.length - st.last_content.length) := by
          simp only [capture_step, if_pos hlt]
          rw [newEntries_numbers]
          congr 1
          simp
        have hst1 : (capture_step st c now).1.last_content = c := by
          simp [capture_step, if_pos hlt]
        have ihr := ih (capture_step st c now).1 (by rw [hst1]; exact hchain)
        have hrun : (runCapture st (CapEvent.capture c now :: rest)).2
            = (capture_step st c now).2.map LineEntry.line_number
              ++ (runCapture (capture_step st c now).1 rest).2 := rfl
        rw [hrun, hbatch]
        constructor
        · rw [List.pairwise_append]
          refine ⟨List.pairwise_lt_range' _ _, ihr.1, ?_⟩
          intro a ha b hb
          rw [List.mem_range'_1] at ha
          have hb' := ihr.2 b hb
          rw [hst1] at hb'
          omega
        · intro n hn
          rw [List.mem_append] at hn
          rcases hn with hn | hn
          · rw [List.mem_range'_1] at hn
            omega
          · have := ihr.2 n hn
            rw [hst1] at this
            omega
      · have hstep : capture_step st c now = (⟨c, st.queue⟩, []) := by
          simp [capture_step, if_neg hlt]
        have hlen : c.length = st.last_content.length := by omega
        have ihr := ih (⟨c, st.queue⟩ : CapState) (by simpa [hlen] using hchain)
        have hrun : (runCapture st (CapEvent.capture c now :: rest)).2
            = ((capture_step st c now).2.map LineEntry.line_number)
              ++ (runCapture (capture_step st c now).1 rest).2 := rfl
        rw [hrun, hstep]
        simp only [List.map_nil, List.nil_append]
        exact ⟨ihr.1, fun n hn => by have := ihr.2 n hn; simpa [hlen] using this⟩

/-- Witness for the amended C3: a run with two growing captures around a
clear keeps strictly increasing line numbers. -/
theorem claim_C3_amended_witness :
    List.Pairwise (· < ·)
      (runCapture ⟨[], []⟩
        [CapEvent.capture ["a"] 0, CapEvent.clear, CapEvent.capture ["a", "b"] 1]).2 :=
  (claim_C3_amended ⟨[], []⟩
    [CapEvent.capture ["a"] 0, CapEvent.clear, CapEvent.capture ["a", "b"] 1]
    (List.Chain.cons (by norm_num) (List.Chain.cons (by norm_num) List.Chain.nil))).1

/-- Claim C5 counterexample: a `CONTEXT_LIMIT` flush with exactly ONE
prior summary already builds rolling context (`if reason ==
ProcessingReason.CONTEXT_LIMIT and self.summaries:` tests emptiness, not
`>= 2`), so the claim's "rolling exactly when ≥ 2 prior summaries exist,
full context otherwise" is false: with one summary the built context is
not the raw text of the queued lines. -/
theorem claim_C5_counterexample :
    buildContext 500 ProcessingReason.context_limit
        [⟨"S", 0, 0, 0, 1⟩] [⟨"foo", 0, 0⟩]
      = "[Last Summary]: S\n\n[Recent Activity]:\nfoo" ∧
    buildContext 500 ProcessingReason.context_limit
        [⟨"S", 0, 0, 0, 1⟩] [⟨"foo", 0, 0⟩]
      ≠ String.intercalate "\n" ([(⟨"foo", 0, 0⟩ : LineEntry)].map LineEntry.content) := by
  constructor <;> decide

/-- Claim C5 amended: a flush builds rolling context exactly when its
reason is `CONTEXT_LIMIT` and at least ONE prior summary exists; the
rolling context concatenates the second-to-last summary (only when at
least two exist), the last summary, and the raw text of the most recent
`max_context_lines` queued lines; every other flush builds full context
from the raw text of every queued line. -/
theorem claim_C5_amended (maxc : Nat) (reason : ProcessingReason)
    (summaries : List Summary) (lines : List LineEntry) :
    (¬ (reason = ProcessingReason.context_limit ∧ summaries ≠ []) →
      buildContext maxc reason summaries lines
        = String.intercalate "\n" (lines.map LineEntry.content)) ∧
    (∀ pre a b, summaries = pre ++ [a, b] → reason = ProcessingReason.context_limit →
      buildContext maxc reason summaries lines
        = String.intercalate "\n\n"
            ["[Previous Summary]: " ++ a.content,
             "[Last Summary]: " ++ b.content,
             "[Recent Activity]:\n"
               ++ String.intercalate "\n" ((pyTailSlice maxc lines).map LineEntry.content)]) ∧
    (∀ a, summaries = [a] → reason = ProcessingReason.context_limit →
      buildContext maxc reason summaries lines
        = String.intercalate "\n\n"
            ["[Last Summary]: " ++ a.content,
             "[Recent Activity]:\n"
               ++ String.intercalate "\n" ((pyTailSlice maxc lines).map LineEntry.content)]) := by
  refine ⟨?_, ?_, ?_⟩
  · intro hno
    simp only [buildContext]
    rw [if_neg hno]
  · intro pre a b hs hr
    subst hs
    subst hr
    have hlen : (pre ++ [a, b]).length = pre.length + 2 := by simp
    have h21 : pre.length + 2 - 1 = pre.length + 1 := by omega
    have ha : (pre ++ [a, b])[pre.length]? = some a := by
      rw [List.getElem?_append_right (Nat.le_refl _)]
      simp
    have hb2 : (pre ++ [a, b])[pre.length + 1]? = some b := by
      rw [List.getElem?_append_right (by omega)]
      have h1 : pre.length + 1 - pre.length = 1 := by omega
      rw [h1]
      rfl
    simp [buildContext, build_rolling_context, hlen, h21, ha, hb2]
  · intro a hs hr
    subst hs
    subst hr
    simp [buildContext, build_rolling_context]

/-- Witness for the amended C5, covering the two-summaries rolling case
and the full-context case at concrete inputs. -/
theorem claim_C5_amended_witness :
    buildContext 500 ProcessingReason.context_limit
        [⟨"S1", 0, 0, 0, 1⟩, ⟨"S2", 1, 1, 1, 1⟩] [⟨"foo", 2, 2⟩]
      = "[Previous Summary]: S1\n\n[Last Summary]: S2\n\n[Recent Activity]:\nfoo" ∧
    buildContext 500 ProcessingReason.pause_detected
        [⟨"S1", 0, 0, 0, 1⟩, ⟨"S2", 1, 1, 1, 1⟩] [⟨"foo", 2, 2⟩]
      = "foo" := by
  constructor
  · have h := (claim_C5_amended 500 ProcessingReason.context_limit
      [⟨"S1", 0, 0, 0, 1⟩, ⟨"S2", 1, 1, 1, 1⟩] [⟨"foo", 2, 2⟩]).2.1
      [] ⟨"S1", 0, 0, 0, 1⟩ ⟨"S2", 1, 1, 1, 1⟩ rfl rfl
    rw [h]
    decide
  · have h := (claim_C5_amended 500 ProcessingReason.pause_detected
      [⟨"S1", 0, 0, 0, 1⟩, ⟨"S2", 1, 1, 1, 1⟩] [⟨"foo", 2, 2⟩]).1 (by simp)
    rw [h]
    decide

/-- Claim C6 counterexample: when the Summarizer raises during a flush,
`summarize_activity` has no `try/except` — the exception escapes
`process_queue` before any Summary is created, so no "error string
embedded in the content of the resulting Summary" exists: the state at
the raise point still has an empty summary history (and the unflushed
queue). -/
theorem claim_C6_counterexample :
    process_queue ⟨500, 15, 120⟩ ⟨[⟨"hello", 0, 7⟩], [], ⟨0, 0, 0, 0, 0⟩⟩
        ProcessingReason.pause_detected
        (fun _ => Except.error "boom") (fun _ => Except.ok "next") 1
      = PQOutcome.err ⟨[⟨"hello", 0, 7⟩], [], ⟨0, 0, 0, 0, 0⟩⟩ ⟨true, false, none⟩ "boom" ∧
    (pqState (process_queue ⟨500, 15, 120⟩ ⟨[⟨"hello", 0, 7⟩], [], ⟨0, 0, 0, 0, 0⟩⟩
        ProcessingReason.pause_detected
        (fun _ => Except.error "boom") (fun _ => Except.ok "next") 1)).summaries = [] := by
  constructor <;> rfl

/-- Claim C6 amended: a Summarizer failure aborts the flush before any
Summary is created, leaving the whole state untouched, and the exception
is caught by the monitoring loop's per-tick handler, so the tick returns
with the state unchanged and the loop continues; a NextStepGenerator
failure escapes after the Summary (whose content is exactly the
Summarizer's output, with no error text) has been recorded and the queue
cleared. No error string is ever embedded in a Summary. -/
theorem claim_C6_amended (cfg : MonitorConfig) (patterns : List (String → Bool))
    (st : MonitorState) (idle : Rat) (reason : ProcessingReason)
    (f g : String → Except String String) (now : Nat) (e : String) :
    ((∀ s, f s = Except.error e) →
      (st.line_queue ≠ [] →
        process_queue cfg st reason f g now = PQOutcome.err st ⟨true, false, none⟩ e) ∧
      monitor_tick cfg patterns st idle f g now = st) ∧
    (∀ ft : String → String, (∀ s, f s = Except.ok (ft s)) →
      (∀ s, g s = Except.error e) →
      (reason = ProcessingReason.prompt_detected ∨ reason = ProcessingReason.timeout) →
      st.line_queue ≠ [] →
      ∃ stF : MonitorState,
        process_queue cfg st reason f g now = PQOutcome.err stF ⟨true, true, none⟩ e ∧
        stF.line_queue = [] ∧
        ∃ s : Summary, stF.summaries = st.summaries ++ [s] ∧
          s.content
            = ft (buildContext cfg.max_context_lines reason st.summaries st.line_queue)) := by
  constructor
  · intro hf
    have hkey : ∀ r : ProcessingReason, st.line_queue ≠ [] →
        process_queue cfg st r f g now = PQOutcome.err st ⟨true, false, none⟩ e := by
      intro r hne
      simp only [process_queue, hf]
      rw [if_neg hne]
    refine ⟨hkey reason, ?_⟩
    cases hd : monitorDecision cfg patterns st.line_queue idle with
    | none => simp [monitor_tick, hd]
    | some r =>
      by_cases hq : st.line_queue = []
      · simp only [monitor_tick, hd]
        simp [process_queue, hq, pqState]
      · simp only [monitor_tick, hd]
        rw [hkey r hq]
        rfl
  · intro ft hf hg hreason hne
    cases st with
    | mk q sums stats =>
      cases q with
      | nil => exact absurd rfl hne
      | cons first rest =>
        rcases hreason with hr | hr <;> subst hr
        all_goals
          refine ⟨⟨[], sums ++
              [⟨ft (buildContext cfg.max_context_lines _ sums (first :: rest)),
                first.line_number,
                ((first :: rest).getLast (List.cons_ne_nil first rest)).line_number,
                now, (first :: rest).length⟩],
              { stats with summaries_created := stats.summaries_created + 1 }⟩,
            ?_, rfl, ⟨_, rfl, rfl⟩⟩
        all_goals simp [process_queue, hf, hg]

/-- Witness for the amended C6 at concrete inputs: a failing Summarizer
leaves a concrete one-line state unchanged through a full tick, and a
failing NextStepGenerator leaves behind exactly one appended Summary
holding the Summarizer's output. -/
theorem claim_C6_amended_witness :
    monitor_tick ⟨500, 15, 120⟩ [] ⟨[⟨"hello", 0, 7⟩], [], ⟨0, 0, 0, 0, 0⟩⟩ 20
        (fun _ => Except.error "boom") (fun _ => Except.ok "next") 1
      = ⟨[⟨"hello", 0, 7⟩], [], ⟨0, 0, 0, 0, 0⟩⟩ ∧
    ∃ stF : MonitorState,
      process_queue ⟨500, 15, 120⟩ ⟨[⟨"hello", 0, 7⟩], [], ⟨0, 0, 0, 0, 0⟩⟩
          ProcessingReason.timeout
          (fun s => Except.ok ("sum of " ++ s)) (fun _ => Except.error "boom") 1
        = PQOutcome.err stF ⟨true, true, none⟩ "boom" ∧
      stF.line_queue = [] ∧
      ∃ s : Summary, stF.summaries = [] ++ [s] ∧ s.content = "sum of hello" := by
  constructor
  · exact ((claim_C6_amended ⟨500, 15, 120⟩ [] ⟨[⟨"hello", 0, 7⟩], [], ⟨0, 0, 0, 0, 0⟩⟩ 20
      ProcessingReason.pause_detected
      (fun _ => Except.error "boom") (fun _ => Except.ok "next") 1 "boom").1
      (fun _ => rfl)).2
  · exact (claim_C6_amended ⟨500, 15, 120⟩ [] ⟨[⟨"hello", 0, 7⟩], [], ⟨0, 0, 0, 0, 0⟩⟩ 20
      ProcessingReason.timeout
      (fun s => Except.ok ("sum of " ++ s)) (fun _ => Except.error "boom") 1 "boom").2
      (fun s => "sum of " ++ s) (fun _ => rfl) (fun _ => rfl) (Or.inr rfl) (by simp)

/-- Claim C7 counterexample: the claim quantifies over every registered
auto-response, but `handle_interactive_prompt` guards the send with
Python truthiness (`if response:`). With the empty string registered for
the matched pattern `Overwrite.*\?`, the lookup finds it, yet nothing is
sent, `auto_responses` is not incremented, and the queue processor is
invoked with `QUESTION_DETECTED` instead. -/
theorem claim_C7_counterexample :
    get_auto_response ⟨[], [("Overwrite.*\\?", "")]⟩ "Overwrite.*\\?" = some "" ∧
    handle_interactive_prompt ⟨500, 15, 120⟩ true ⟨[], [("Overwrite.*\\?", "")]⟩
        ⟨[], [], ⟨0, 0, 0, 0, 0⟩⟩ "Overwrite existing file? (y/n)"
        (fun _ => Except.ok "s") (fun _ => Except.ok "n") 3
      = ⟨⟨[], [], ⟨0, 0, 1, 0, 0⟩⟩, none, some ProcessingReason.question_detected,
          some (PQOutcome.ok ⟨[], [], ⟨0, 0, 1, 0, 0⟩⟩ ⟨false, false, none⟩)⟩ := by
  constructor <;> rfl

/-- Claim C7 amended: with automation enabled and a line matching a
question pattern, a NON-EMPTY vault auto-response registered for the
matched pattern is sent to the pane and `auto_responses` incremented,
with no `process_queue` invocation (hence no Summarizer or
NextStepGenerator call — the flush field is `none`); when no
auto-response is registered, or the registered response is the empty
string (falsy under `if response:`), the queue processor is invoked
with reason `QUESTION_DETECTED`. -/
theorem claim_C7_amended (cfg : MonitorConfig) (vault : VaultData) (st : MonitorState)
    (line : String) (f g : String → Except String String) (now : Nat)
    (prompt : InteractivePrompt)
    (hdet : detect_interactive_prompt now line = some prompt) :
    (∀ resp, resp ≠ "" → get_auto_response vault prompt.pattern = some resp →
      handle_interactive_prompt cfg true vault st line f g now
        = ⟨{ st with stats := { st.stats with
              prompts_detected := st.stats.prompts_detected + 1,
              auto_responses := st.stats.auto_responses + 1 } },
            some resp, none, none⟩) ∧
    (get_auto_response vault prompt.pattern = none
        ∨ get_auto_response vault prompt.pattern = some "" →
      ∃ out : PQOutcome,
        handle_interactive_prompt cfg true vault st line f g now
          = ⟨pqState out, none, some ProcessingReason.question_detected, some out⟩ ∧
        out = process_queue cfg
          { st with stats := { st.stats with
              prompts_detected := st.stats.prompts_detected + 1 } }
          ProcessingReason.question_detected f g now) := by
  constructor
  · intro resp hne hresp
    simp [handle_interactive_prompt, hdet, hresp, truthyResponse, hne]
  · rintro (hcase | hcase) <;>
      exact ⟨_, by simp [handle_interactive_prompt, hdet, hcase, truthyResponse], rfl⟩

/-- Witness for the amended C7: the spec's own example. Line
`"Overwrite existing file? (y/n)"` matches pattern `Overwrite.*\?`; with
the non-empty response `"y"` registered for that pattern the response is
sent and the counter bumped without any flush; with an empty vault the
queue processor is invoked with `QUESTION_DETECTED`. -/
theorem claim_C7_amended_witness :
    handle_interactive_prompt ⟨500, 15, 120⟩ true ⟨[], [("Overwrite.*\\?", "y")]⟩
        ⟨[], [], ⟨0, 0, 0, 0, 0⟩⟩ "Overwrite existing file? (y/n)"
        (fun _ => Except.ok "s") (fun _ => Except.ok "n") 3
      = ⟨⟨[], [], ⟨0, 0, 1, 0, 1⟩⟩, some "y", none, none⟩ ∧
    ∃ out : PQOutcome,
      handle_interactive_prompt ⟨500, 15, 120⟩ true ⟨[], []⟩
          ⟨[], [], ⟨0, 0, 0, 0, 0⟩⟩ "Overwrite existing file? (y/n)"
          (fun _ => Except.ok "s") (fun _ => Except.ok "n") 3
        = ⟨pqState out, none, some ProcessingReason.question_detected, some out⟩ := by
  constructor
  · exact (claim_C7_amended ⟨500, 15, 120⟩ ⟨[], [("Overwrite.*\\?", "y")]⟩
      ⟨[], [], ⟨0, 0, 0, 0, 0⟩⟩ "Overwrite existing file? (y/n)"
      (fun _ => Except.ok "s") (fun _ => Except.ok "n") 3
      ⟨"Overwrite.*\\?", "general", 3, "Overwrite existing file? (y/n)"⟩
      (by decide)).1 "y" (by decide) (by decide)
  · obtain ⟨out, hout, -⟩ := (claim_C7_amended ⟨500, 15, 120⟩ ⟨[], []⟩
      ⟨[], [], ⟨0, 0, 0, 0, 0⟩⟩ "Overwrite existing file? (y/n)"
      (fun _ => Except.ok "s") (fun _ => Except.ok "n") 3
      ⟨"Overwrite.*\\?", "general", 3, "Overwrite existing file? (y/n)"⟩
      (by decide)).2 (Or.inl (by decide))
    exact ⟨out, hout⟩

/-- Claim C8 counterexample: `get_auto_response` resolves its key
through the plaintext pattern string, not through any fixed-length
16-character hash: a response stored under the 13-character plaintext
key `"Overwrite.*\?"` is found, yet no 16-character key (the length of
every `hexdigest()[:16]` value, the vault's hashing scheme in
`get_password`) can hit this vault at all. -/
theorem claim_C8_counterexample :
    get_auto_response ⟨[], [("Overwrite.*\\?", "y")]⟩ "Overwrite.*\\?" = some "y" ∧
    ∀ k : String, k.length = 16 →
      (VaultData.mk [] [("Overwrite.*\\?", "y")]).auto_responses.lookup k = none := by
  refine ⟨rfl, fun k hk => ?_⟩
  have hlen13 : ("Overwrite.*\\?" : String).length = 13 := rfl
  have hne : k ≠ "Overwrite.*\\?" := by
    intro h
    rw [h, hlen13] at hk
    omega
  have hbe : (k == "Overwrite.*\\?") = false := beq_eq_false_iff_ne.mpr hne
  simp [List.lookup, hbe]

/-- Claim C8 amended: `get_password` resolves its key through the
16-character truncated SHA-256 hex digest of the context (a fixed-length
one-way hash), but `get_auto_response` resolves directly through the
plaintext pattern string. -/
theorem claim_C8_amended (sha256hex : String → String) (vault : VaultData)
    (context pattern : String) (hdigest : ∀ s, (sha256hex s).data.length = 64) :
    get_password sha256hex vault context
      = vault.passwords.lookup ⟨(sha256hex context).data.take 16⟩ ∧
    (⟨(sha256hex context).data.take 16⟩ : String).length = 16 ∧
    get_auto_response vault pattern = vault.auto_responses.lookup pattern := by
  refine ⟨rfl, ?_, rfl⟩
  have h64 := hdigest context
  show ((sha256hex context).data.take 16).length = 16
  rw [List.length_take]
  omega

/-- Witness for the amended C8 at a concrete (constant) digest function
and vault. -/
theorem claim_C8_amended_witness :
    get_password (fun _ => "0123456789abcdef0123456789abcdef0123456789abcdef0123456789abcdef")
        ⟨[("0123456789abcdef", "hunter2")], []⟩ "prod-db"
      = some "hunter2" ∧
    get_auto_response ⟨[("0123456789abcdef", "hunter2")], []⟩ "prod-db" = none := by
  have h := claim_C8_amended
    (fun _ => "0123456789abcdef0123456789abcdef0123456789abcdef0123456789abcdef")
    ⟨[("0123456789abcdef", "hunter2")], []⟩ "prod-db" "prod-db" (fun _ => rfl)
  refine ⟨?_, ?_⟩
  · rw [h.1]
    rfl
  · rw [h.2.2]
    rfl

/-! ### Supporting lemmas about the occurrence dictionary and the
stable descending sort used by the learning heuristic -/

theorem lookup_none_iff_keys {α β : Type} [DecidableEq α] (l : List (α × β)) (a : α) :
    l.lookup a = none ↔ a ∉ l.map Prod.fst := by
  induction l with
  | nil => simp [List.lookup]
  | cons kv rest ih =>
    obtain ⟨k, c⟩ := kv
    by_cases hk : a = k
    · subst hk
      simp [List.lookup]
    · have hbe : (a == k) = false := beq_eq_false_iff_ne.mpr hk
      simp [List.lookup, hbe, ih, hk]

theorem bumpCount_lookup_self (l : List (String × Nat)) (e : String) :
    (bumpCount l e).lookup e = some (((l.lookup e).getD 0) + 1) := by
  induction l with
  | nil => simp [bumpCount, List.lookup]
  | cons kv rest ih =>
    obtain ⟨k, c⟩ := kv
    by_cases hke : k = e
    · subst hke
      simp [bumpCount, List.lookup]
    · have hbe : (e == k) = false := beq_eq_false_iff_ne.mpr (Ne.symm hke)
      simp [bumpCount, hke, List.lookup, hbe, ih]

theorem bumpCount_lookup_ne (l : List (String × Nat)) (e k : String) (hne : k ≠ e) :
    (bumpCount l e).lookup k = l.lookup k := by
  induction l with
  | nil =>
    have hbe : (k == e) = false := beq_eq_false_iff_ne.mpr hne
    simp [bumpCount, List.lookup, hbe]
  | cons kv rest ih =>
    obtain ⟨k1, c⟩ := kv
    by_cases hk1 : k1 = e
    · subst hk1
      have hbe : (k == k1) = false := beq_eq_false_iff_ne.mpr hne
      simp [bumpCount, List.lookup, hbe]
    · by_cases hkk : k = k1
      · subst hkk
        simp [bumpCount, hk1, List.lookup]
      · have hbe : (k == k1) = false := beq_eq_false_iff_ne.mpr hkk
        simp [bumpCount, hk1, List.lookup, hbe, ih]

theorem bumpCount_keys (l : List (String × Nat)) (e : String) :
    (bumpCount l e).map Prod.fst
      = if l.lookup e = none then l.map Prod.fst ++ [e] else l.map Prod.fst := by
  induction l with
  | nil => simp [bumpCount, List.lookup]
  | cons kv rest ih =>
    obtain ⟨k, c⟩ := kv
    by_cases hke : k = e
    · subst hke
      simp [bumpCount, List.lookup]
    · have hbe : (e == k) = false := beq_eq_false_iff_ne.mpr (Ne.symm hke)
      by_cases hl : rest.lookup e = none
      · simp [bumpCount, hke, List.lookup, hbe, hl, ih]
      · simp [bumpCount, hke, List.lookup, hbe, hl, ih]

theorem bumpCount_keys_nodup (l : List (String × Nat)) (e : String)
    (h : (l.map Prod.fst).Nodup) : ((bumpCount l e).map Prod.fst).Nodup := by
  rw [bumpCount_keys]
  by_cases hl : l.lookup e = none
  · rw [if_pos hl]
    have hmem : e ∉ l.map Prod.fst := (lookup_none_iff_keys l e).mp hl
    simp [List.nodup_append, h, hmem]
  · rw [if_neg hl]
    exact h

theorem mem_iff_lookup_keys (l : List (String × Nat)) (k : String) (c : Nat)
    (h : (l.map Prod.fst).Nodup) : (k, c) ∈ l ↔ l.lookup k = some c := by
  induction l with
  | nil => simp [List.lookup]
  | cons kv rest ih =>
    obtain ⟨k1, c1⟩ := kv
    simp only [List.map_cons, List.nodup_cons] at h
    obtain ⟨hk1nm, hnd⟩ := h
    by_cases hk : k = k1
    · subst hk
      simp only [List.lookup, beq_self_eq_true]
      constructor
      · intro hmem
        rcases List.mem_cons.mp hmem with heq | hmem2
        · have hc : c = c1 := (Prod.mk.injEq k c k c1).mp heq |>.2
          rw [hc]
        · exact absurd (List.mem_map_of_mem Prod.fst hmem2) hk1nm
      · intro hlk
        have hc : c1 = c := by
          injection hlk
        rw [← hc]
        exact List.mem_cons_self _ _
    · have hbe : (k == k1) = false := beq_eq_false_iff_ne.mpr hk
      simp only [List.lookup, hbe]
      rw [← ih hnd]
      constructor
      · intro hmem
        rcases List.mem_cons.mp hmem with heq | h2
        · exact absurd ((Prod.mk.injEq k c k1 c1).mp heq).1 hk
        · exact h2
      · intro h2
        exact List.mem_cons_of_mem _ h2

theorem countEndings_concat (es : List String) (e : String) :
    countEndings (es ++ [e]) = bumpCount (countEndings es) e := by
  simp [countEndings, List.foldl_append]

theorem countEndings_lookup (es : List String) (k : String) :
    (countEndings es).lookup k
      = if es.count k = 0 then none else some (es.count k) := by
  induction es using List.reverseRecOn with
  | nil => simp [countEndings, List.lookup]
  | append_singleton es e ih =>
    rw [countEndings_concat]
    by_cases hk : k = e
    · subst hk
      rw [bumpCount_lookup_self, ih]
      have hcnt : (es ++ [k]).count k = es.count k + 1 := by
        rw [List.count_append]
        simp
      by_cases h0 : es.count k = 0
      · simp [h0, hcnt]
      · simp [h0, hcnt]
    · rw [bumpCount_lookup_ne _ _ _ hk, ih]
      have hcnt : (es ++ [e]).count k = es.count k := by
        rw [List.count_append]
        have h0 : [e].count k = 0 := by
          rw [List.count_eq_zero]
          simp [hk]
        rw [h0]
        omega
      rw [hcnt]

theorem countEndings_keys_nodup (es : List String) :
    ((countEndings es).map Prod.fst).Nodup := by
  induction es using List.reverseRecOn with
  | nil => simp [countEndings]
  | append_singleton es e ih =>
    rw [countEndings_concat]
    exact bumpCount_keys_nodup _ _ ih

theorem mem_countEndings (es : List String) (k : String) (c : Nat) :
    (k, c) ∈ countEndings es ↔ (k ∈ es ∧ c = es.count k) := by
  rw [mem_iff_lookup_keys _ _ _ (countEndings_keys_nodup es), countEndings_lookup]
  by_cases h0 : es.count k = 0
  · rw [if_pos h0]
    constructor
    · intro h
      exact absurd h (by simp)
    · rintro ⟨hk, -⟩
      exact absurd hk (List.count_eq_zero.mp h0)
  · rw [if_neg h0]
    simp only [Option.some.injEq]
    constructor
    · intro h
      refine ⟨?_, h.symm⟩
      have := Nat.pos_of_ne_zero h0
      exact List.count_pos_iff.mp this
    · rintro ⟨-, hc⟩
      exact hc.symm

theorem mem_insertDescNat (x n : Nat) (l : List Nat) :
    x ∈ insertDescNat n l ↔ x = n ∨ x ∈ l := by
  induction l with
  | nil => simp [insertDescNat]
  | cons m rest ih =>
    by_cases h : m ≤ n
    · simp [insertDescNat, h]
    · simp [insertDescNat, h, ih]
      tauto

theorem mem_sortDescNat (x : Nat) (l : List Nat) : x ∈ sortDescNat l ↔ x ∈ l := by
  induction l with
  | nil => simp [sortDescNat]
  | cons m rest ih =>
    rw [show sortDescNat (m :: rest) = insertDescNat m (sortDescNat rest) from rfl,
      mem_insertDescNat, ih]
    simp

theorem mem_sortByCountDesc (x : String × Nat) (l : List (String × Nat)) :
    x ∈ sortByCountDesc l ↔ x ∈ l := by
  simp only [sortByCountDesc, List.mem_flatMap]
  constructor
  · rintro ⟨c, -, hx⟩
    exact (List.mem_filter.mp hx).1
  · intro hx
    refine ⟨x.2, ?_, ?_⟩
    · rw [mem_sortDescNat, List.mem_dedup]
      exact List.mem_map_of_mem Prod.snd hx
    · exact List.mem_filter.mpr ⟨hx, by simp⟩

/-- Claim C9 counterexample: three identical 15-character lines ending
in a `$`-bearing string. Under the claim's reading ("trailing ≤15
characters"), the whole line qualifies, occurs 3 times, and must be
proposed; the code, however, keeps only stripped 20-character tails of
length *strictly less than 15* (`len(ending) > 0 and len(ending) < 15`),
rejects the candidate, and proposes nothing. -/
theorem claim_C9_counterexample :
    analyze_for_prompt_pattern ⟨true, [], []⟩
        ["abcdefghij$abcd", "abcdefghij$abcd", "abcdefghij$abcd"] = none ∧
    analyzeClaimHeuristic ⟨true, [], []⟩
        ["abcdefghij$abcd", "abcdefghij$abcd", "abcdefghij$abcd"]
      = some "abcdefghij\\$abcd\\s*$" := by
  constructor <;> rfl

/-- Claim C9 amended: over the last 10 non-blank lines the heuristic
considers each line's whitespace-stripped trailing 20 characters, keeps
those of length 1 to 14 containing a prompt-like character, and proposes
exactly one new pattern — the escaped literal of such a string occurring
at least 3 times, followed by optional whitespace and the end-of-line
anchor — whenever one exists whose derived pattern is not already known;
anything it proposes is of exactly that shape. -/
theorem claim_C9_amended (cfg : LearnConfig) (lines : List String)
    (hon : cfg.prompt_learning_enabled = true) :
    (∀ p, analyze_for_prompt_pattern cfg lines = some p →
      ∃ e, p = promptPatternOf e ∧ e ∈ keptEndings lines ∧
        3 ≤ (keptEndings lines).count e ∧
        1 ≤ e.length ∧ e.length ≤ 14 ∧ containsPromptChar e = true ∧
        promptPatternOf e ∉ cfg.prompt_patterns ∧
        promptPatternOf e ∉ cfg.learned_prompts) ∧
    ((∃ e, e ∈ keptEndings lines ∧ 3 ≤ (keptEndings lines).count e ∧
        promptPatternOf e ∉ cfg.prompt_patterns ∧
        promptPatternOf e ∉ cfg.learned_prompts) →
      ∃ p, analyze_for_prompt_pattern cfg lines = some p) := by
  constructor
  · intro p hp
    simp only [analyze_for_prompt_pattern, hon, Bool.not_true, Bool.false_eq_true,
      if_false] at hp
    obtain ⟨ec, hfind, hpp⟩ := Option.map_eq_some'.mp hp
    have hpred := List.find?_some hfind
    have hmem := List.mem_of_find?_eq_some hfind
    rw [mem_sortByCountDesc] at hmem
    obtain ⟨e, c⟩ := ec
    rw [mem_countEndings] at hmem
    obtain ⟨hke, hcnt⟩ := hmem
    simp only [Bool.and_eq_true, decide_eq_true_eq, Bool.not_eq_true',
      decide_eq_false_iff_not] at hpred
    obtain ⟨⟨h3, hnp⟩, hnl⟩ := hpred
    have hkept := (List.mem_filter.mp hke).2
    simp only [Bool.and_eq_true, decide_eq_true_eq] at hkept
    obtain ⟨⟨hl0, hl15⟩, hpc⟩ := hkept
    exact ⟨e, hpp.symm, hke, by omega, by omega, by omega, hpc, hnp, hnl⟩
  · rintro ⟨e, hke, hc3, hp1, hp2⟩
    have hmem : (e, (keptEndings lines).count e) ∈ countEndings (keptEndings lines) :=
      (mem_countEndings _ _ _).mpr ⟨hke, rfl⟩
    have hmem2 : (e, (keptEndings lines).count e)
        ∈ sortByCountDesc (countEndings (keptEndings lines)) :=
      (mem_sortByCountDesc _ _).mpr hmem
    have hpred : (fun ec : String × Nat => decide (3 ≤ ec.2)
        && !decide (promptPatternOf ec.1 ∈ cfg.prompt_patterns)
        && !decide (promptPatternOf ec.1 ∈ cfg.learned_prompts))
          (e, (keptEndings lines).count e) = true := by
      simp only [Bool.and_eq_true, decide_eq_true_eq, Bool.not_eq_true',
        decide_eq_false_iff_not]
      exact ⟨⟨hc3, hp1⟩, hp2⟩
    have hsome : ((sortByCountDesc (countEndings (keptEndings lines))).find?
        (fun ec : String × Nat => decide (3 ≤ ec.2)
          && !decide (promptPatternOf ec.1 ∈ cfg.prompt_patterns)
          && !decide (promptPatternOf ec.1 ∈ cfg.learned_prompts))).isSome :=
      List.find?_isSome.mpr ⟨_, hmem2, hpred⟩
    obtain ⟨ec, hec⟩ := Option.isSome_iff_exists.mp hsome
    refine ⟨promptPatternOf ec.1, ?_⟩
    simp only [analyze_for_prompt_pattern, hon, Bool.not_true, Bool.false_eq_true,
      if_false, hec, Option.map_some']

/-- Witness for the amended C9: three lines ending `"ab ] $"` (kept
ending of length 6 with prompt characters, occurring 3 times, nothing
known yet) make the heuristic propose a pattern. -/
theorem claim_C9_amended_witness :
    ∃ p, analyze_for_prompt_pattern ⟨true, [], []⟩
      ["ab ] $", "x", "ab ] $", "y>", "ab ] $"] = some p :=
  (claim_C9_amended ⟨true, [], []⟩ ["ab ] $", "x", "ab ] $", "y>", "ab ] $"] rfl).2
    ⟨"ab ] $", by decide, by decide, by decide, by decide⟩

end Tmux
